import Mathlib

/-!
Shallow embedding of the training-episode controller of
`camel/environments/base.py` (class `BaseEnvironment` and its data model
`Action`, `Observation`, `StepResult`), together with theorems settling the
specification claims about it.

Modelling conventions:
- Python `float` reward arithmetic is modelled with `Rat` (all claim-relevant
  values are 0/1 and small exact fractions).
- Python dicts with runtime-chosen string keys are association lists
  (`List (String × _)`) with Python insertion-order update semantics
  (`dictInsert`, `dictUnion` mirror `d[k] = v` and `a | b`).
- Python dicts with a fixed key set (`_state`, the constructor fields) are
  Lean structures.
- `async` methods that can raise are functions returning `Except`/`Option`
  errors *paired with the post-call object state*, since in Python the
  mutations made before an exception persist on the object.
- Collaborators (dataset, verifier, extractor, teacher agent) are records of
  the functions the controller calls; `hasattr`-guarded optional hooks are
  `Option (Except String Unit)` (absent hook / succeeding hook / raising
  hook).
-/

namespace Camel

/-- A Python value appearing in an open-ended `Dict[str, Any]`
(observation context / metadata). -/
inductive Val where
  | vNone
  | vBool (b : Bool)
  | vNat (n : Nat)
  | vStr (s : String)
  deriving DecidableEq, Repr

/-- First-match lookup in an association list, i.e. Python `d.get(k)` for a
dict represented in insertion order with unique keys. -/
def dictGet? {α : Type} (l : List (String × α)) (k : String) : Option α :=
  match l with
  | [] => none
  | (k1, v) :: t => if k1 = k then some v else dictGet? t k

/-- Python `d[k] = v` on an insertion-ordered dict: overwrite in place if the
key is present, else append. -/
def dictInsert {α : Type} (l : List (String × α)) (k : String) (v : α) :
    List (String × α) :=
  if (dictGet? l k).isSome then
    l.map (fun p => if p.1 = k then (k, v) else p)
  else
    l ++ [(k, v)]

/-- Python `a | b` (also `{**a, **b}`) on insertion-ordered dicts: keys of `a`
keep their position with `b`'s values winning on collision, new keys of `b`
are appended in `b`'s order. -/
def dictUnion {α : Type} (a b : List (String × α)) : List (String × α) :=
  b.foldl (fun acc p => dictInsert acc p.1 p.2) a

/-- The keys of an association-list dict, in order. -/
def dictKeys {α : Type} (l : List (String × α)) : List String :=
  l.map Prod.fst

/-- Python `sum(d.values())`. -/
def sumValues (l : List (String × Rat)) : Rat :=
  (l.map Prod.snd).sum

/-- Python truthiness of an `Optional[str]`: `None` and `""` are falsy, so
`not x` is true exactly here. -/
def optStrFalsy : Option String → Bool
  | none => true
  | some s => s.isEmpty

/-- Embed an `Optional[str]` into a metadata/context value. -/
def optStrVal : Option String → Val
  | none => Val.vNone
  | some s => Val.vStr s

/-- `Action` (`camel/environments/base.py`): one agent turn. The `timestamp`
field (a UTC creation instant irrelevant to every claim) is omitted. -/
structure Action where
  problem_statement : String
  llm_response : String
  final_answer : Option String
  metadata : List (String × Val) := []
  deriving DecidableEq, Repr

/-- `Observation` (`camel/environments/base.py`). -/
structure Observation where
  question : String
  context : List (String × Val) := []
  metadata : Option (List (String × Val)) := none
  deriving DecidableEq, Repr

/-- Modelled from the spec: `VerificationOutcome`
(`camel/verifiers/models.py`, not under the provided sources). The
controller only tests `status == VerificationOutcome.SUCCESS`, so the model
keeps a success constructor and a single non-success constructor. -/
inductive VerificationOutcome where
  | success
  | failure
  deriving DecidableEq, Repr

/-- Modelled from the spec: `VerificationResult`
(`camel/verifiers/base.py`, not under the provided sources); only its
`status` field is consulted by the controller. -/
structure VerificationResult where
  status : VerificationOutcome
  deriving DecidableEq, Repr

/-- A dataset item as read through `getattr` in `_get_next_observation`:
every field may be absent (`None`). -/
structure DataPointRef where
  question : Option String
  final_answer : Option String
  rationale : Option String := none
  difficulty : Option String := none
  metadata : List (String × Val) := []
  deriving DecidableEq, Repr

/-- The fixed-key `_state` dict built by `_get_initial_state`. -/
structure StateMap where
  current_datapoint : Option DataPointRef
  attempts : Nat
  success_rate : Rat
  rewards : List (List (String × Rat))
  termination_reason : Option String
  deriving DecidableEq, Repr

/-- A value stored in a `StepResult.info` dict. -/
inductive InfoVal where
  | str (s : String)
  | vres (r : VerificationResult)
  | nat (n : Nat)
  | state (s : StateMap)
  deriving DecidableEq, Repr

/-- `StepResult` (`camel/environments/base.py`). -/
structure StepResult where
  observation : Observation
  reward : Rat
  rewards_dict : List (String × Rat) := []
  done : Bool
  info : List (String × InfoVal) := []
  deriving DecidableEq, Repr

/-- The dataset collaborator as consumed by the controller: indexed items
(`items[i] = none` models an item whose read yields a falsy value), the
`isinstance(…, GenerativeDataset)` test, the outcome of
`generate_new(1)` (items it would append, or a raised error), and the
optional `setup`/`cleanup` hooks. -/
structure DatasetIface where
  items : List (Option DataPointRef)
  generative : Bool
  gen_new : Except String (List (Option DataPointRef)) := Except.error "not generative"
  setup_hook : Option (Except String Unit) := none
  cleanup_hook : Option (Except String Unit) := none

/-- The verifier collaborator: `verify(VerifierInput(llm_response, ground_truth))`
plus optional lifecycle hooks. -/
structure VerifierIface where
  verify : String → Option String → Except String VerificationResult
  setup_hook : Option (Except String Unit) := none
  cleanup_hook : Option (Except String Unit) := none

/-- The extractor collaborator: `extract(raw)` returning `Optional[str]` or
raising, plus optional lifecycle hooks. -/
structure ExtractorIface where
  extract : String → Except String (Option String)
  setup_hook : Option (Except String Unit) := none
  cleanup_hook : Option (Except String Unit) := none

/-- `BaseEnvironment` (`camel/environments/base.py`): constructor arguments
plus the mutable state-tracking fields initialised in `__init__`. The
abstract reward hook `_compute_reward` is the subclass-supplied
`reward_hook`; the optional teacher agent is represented by the outcome of
its `reset()` call (`none` = no teacher). -/
structure BaseEnvironment where
  dataset : DatasetIface
  verifier : VerifierIface
  extractor : ExtractorIface
  max_steps : Option Int := none
  teacher_agent : Option (Except String Unit) := none
  reward_hook : Action → String → VerificationResult → List (String × Rat)
  is_setup : Bool := false
  current_step : Nat := 0
  episode_ended : Bool := false
  state : StateMap
  last_observation : Option Observation := none
  episode_history : List (Observation × Action) := []

/-- Run a `hasattr`-guarded optional hook: `none` when the hook is absent or
returns, `some msg` when it raises. -/
def runHook : Option (Except String Unit) → Option String
  | none => none
  | some (Except.ok _) => none
  | some (Except.error e) => some e

/-- `_get_initial_state`. -/
def get_initial_state : StateMap :=
  { current_datapoint := none
    attempts := 0
    success_rate := 0
    rewards := []
    termination_reason := none }

/-- The Python condition `self.max_steps and self._current_step >= self.max_steps`
(used both by the pre-step short-circuit and by `_is_done`): `None` and `0`
are falsy, so the budget only fires for a nonzero configured budget. -/
def max_steps_reached (max_steps : Option Int) (current_step : Nat) : Bool :=
  match max_steps with
  | none => false
  | some n => if n = 0 then false else decide (n ≤ (current_step : Int))

/-- `_is_done`. -/
def is_done (env : BaseEnvironment) : Bool :=
  max_steps_reached env.max_steps env.current_step

/-- `_get_terminal_observation`. -/
def get_terminal_observation (env : BaseEnvironment) : Observation :=
  { question := "Episode completed"
    context := []
    metadata := some [("terminal", Val.vBool true),
                      ("final_step", Val.vNat env.current_step)] }

/-- `setup`: skipped when already set up; runs the collaborator setup hooks
(verifier, dataset, extractor) and the teacher agent reset in order; a
raising hook re-raises with `is_setup` left false. -/
def setup (env : BaseEnvironment) : Option String × BaseEnvironment :=
  if env.is_setup then (none, env)
  else
    match runHook env.verifier.setup_hook with
    | some e => (some e, env)
    | none =>
      match runHook env.dataset.setup_hook with
      | some e => (some e, env)
      | none =>
        match runHook env.extractor.setup_hook with
        | some e => (some e, env)
        | none =>
          match runHook env.teacher_agent with
          | some e => (some e, env)
          | none => (none, { env with is_setup := true })

/-- `teardown`: no-op when not set up; runs the collaborator cleanup hooks
(verifier, dataset, extractor) in order; only after all of them return is
`is_setup` cleared — a raising hook re-raises *before* the clear. -/
def teardown (env : BaseEnvironment) : Option String × BaseEnvironment :=
  if env.is_setup = false then (none, env)
  else
    match runHook env.verifier.cleanup_hook with
    | some e => (some e, env)
    | none =>
      match runHook env.dataset.cleanup_hook with
      | some e => (some e, env)
      | none =>
        match runHook env.extractor.cleanup_hook with
        | some e => (some e, env)
        | none => (none, { env with is_setup := false })

/-- The sampling body of `_get_next_observation` (its `try:` block): re-check
emptiness, read the item at `current_step % len(dataset)`, record it in
`_state["current_datapoint"]`, and build the observation — any missing item
or missing required field yields the terminal observation instead. -/
def sample_datapoint (env : BaseEnvironment) : Observation × BaseEnvironment :=
  if env.dataset.items.length = 0 then
    (get_terminal_observation env, env)
  else
    let datapoint_idx := env.current_step % env.dataset.items.length
    match env.dataset.items.getD datapoint_idx none with
    | none => (get_terminal_observation env, env)
    | some datapoint =>
      let env1 := { env with
        state := { env.state with current_datapoint := some datapoint } }
      if optStrFalsy datapoint.question || optStrFalsy datapoint.final_answer then
        (get_terminal_observation env1, env1)
      else
        ({ question := datapoint.question.getD ""
           context := [("final_answer", optStrVal datapoint.final_answer),
                       ("difficulty", optStrVal datapoint.difficulty),
                       ("rationale", optStrVal datapoint.rationale)]
           metadata := some (dictUnion
             [("step", Val.vNat env1.current_step),
              ("datapoint_id", Val.vStr (toString datapoint_idx)),
              ("verified", (dictGet? datapoint.metadata "verified").getD (Val.vBool false))]
             datapoint.metadata) },
         env1)

/-- `_get_next_observation`: on an empty dataset, attempt on-demand
generation for a generative dataset (falling back to the terminal
observation when generation raises) and return the terminal observation for
a non-generative one; otherwise sample. -/
def get_next_observation (env : BaseEnvironment) : Observation × BaseEnvironment :=
  if env.dataset.items.length = 0 then
    if env.dataset.generative then
      match env.dataset.gen_new with
      | Except.error _ => (get_terminal_observation env, env)
      | Except.ok newItems =>
        sample_datapoint
          { env with dataset := { env.dataset with items := env.dataset.items ++ newItems } }
    else
      (get_terminal_observation env, env)
  else
    sample_datapoint env

/-- `reset`: lazily `setup` (propagating its failure), clear the episode
state, sample the first observation and store it as `last_observation`. -/
def reset (env : BaseEnvironment) : Except String Observation × BaseEnvironment :=
  match (if env.is_setup = false then setup env else (none, env)) with
  | (some e, env1) => (Except.error e, env1)
  | (none, env1) =>
    let env2 := { env1 with
      current_step := 0
      episode_ended := false
      episode_history := []
      state := get_initial_state }
    let (observation, env3) := get_next_observation env2
    (Except.ok observation, { env3 with last_observation := some observation })

/-- `compute_reward`: base `correctness` component from the verification
status, state update (reward-history append and success-rate formula — note
the code reads but never writes `_state["attempts"]`), then merge with the
subclass hook's components, the hook winning on key collision; the scalar
reward is the sum of the merged values. -/
def compute_reward (env : BaseEnvironment) (action : Action)
    (extraction_result : String) (verification_result : VerificationResult) :
    (Rat × List (String × Rat)) × BaseEnvironment :=
  let verification_success : Rat :=
    if verification_result.status = VerificationOutcome.success then 1 else 0
  let rewards : List (String × Rat) :=
    dictInsert [] "correctness" (if (1 : Rat) / 2 < verification_success then 1 else 0)
  let st1 := { env.state with rewards := env.state.rewards ++ [rewards] }
  let total_attempts : Nat := st1.attempts + 1
  let st2 := { st1 with success_rate :=
    (st1.success_rate * ((total_attempts : Rat) - 1) + verification_success)
      / (total_attempts : Rat) }
  let further_rewards := env.reward_hook action extraction_result verification_result
  let merged := dictUnion rewards further_rewards
  ((sumValues merged, merged), { env with state := st2 })

/-- The errors `step` can raise: the three `RuntimeError` ordering checks,
and an uncaught collaborator (extractor/verifier) exception. -/
inductive StepError where
  | not_setup
  | episode_has_ended
  | no_observation
  | collaborator (msg : String)
  deriving DecidableEq, Repr

/-- The `StepResult` returned by the pre-step budget short-circuit. -/
def max_steps_result (env : BaseEnvironment) : StepResult :=
  { observation := get_terminal_observation env
    reward := 0
    rewards_dict := []
    done := true
    info := [("reason", InfoVal.str "max_steps_reached")] }

/-- `step`: budget short-circuit, the three ordering checks, step counter
increment and history append, extractor, verifier, reward aggregation,
termination decision, next/terminal observation, and state/result update.
The returned environment is the object state after the call, also when the
call raises. -/
def step (env : BaseEnvironment) (action : Action) :
    Except StepError StepResult × BaseEnvironment :=
  if max_steps_reached env.max_steps env.current_step then
    (Except.ok (max_steps_result env), env)
  else if env.is_setup = false then
    (Except.error StepError.not_setup, env)
  else if env.episode_ended then
    (Except.error StepError.episode_has_ended, env)
  else
    match env.last_observation with
    | none => (Except.error StepError.no_observation, env)
    | some current_obs =>
      let env1 := { env with current_step := env.current_step + 1 }
      let env2 := { env1 with episode_history := env1.episode_history ++ [(current_obs, action)] }
      match env2.extractor.extract action.llm_response with
      | Except.error e => (Except.error (StepError.collaborator e), env2)
      | Except.ok extraction0 =>
        let extraction_result := extraction0.getD ""
        match env2.verifier.verify extraction_result action.final_answer with
        | Except.error e => (Except.error (StepError.collaborator e), env2)
        | Except.ok verification_result =>
          let rewarded := compute_reward env2 action extraction_result verification_result
          let total_reward := rewarded.1.1
          let rewards_dict := rewarded.1.2
          let env3 := rewarded.2
          let done := is_done env3
          let sampled := if done then (get_terminal_observation env3, env3)
                         else get_next_observation env3
          let next_obs := sampled.1
          let env4 := sampled.2
          let env5 := { env4 with last_observation := some next_obs, episode_ended := done }
          (Except.ok
            { observation := next_obs
              reward := total_reward
              rewards_dict := rewards_dict
              done := done
              info := [("extraction_result", InfoVal.str extraction_result),
                       ("verification_result", InfoVal.vres verification_result),
                       ("step", InfoVal.nat env5.current_step),
                       ("state", InfoVal.state env5.state)] },
           env5)

/-- The `history`/`current_step` invariant of the spec's data-model section:
the episode history length equals the step counter. -/
def histInv (e : BaseEnvironment) : Prop :=
  e.episode_history.length = e.current_step

/-! ### Concrete fixtures used by counterexamples and witnesses -/

/-- A well-formed dataset item. -/
def dpFix (q fa : String) : DataPointRef :=
  { question := some q, final_answer := some fa }

/-- An extractor whose `extract` returns the raw response unchanged. -/
def idExtractor : ExtractorIface :=
  { extract := fun s => Except.ok (some s) }

/-- A verifier reporting success exactly when the extracted text is `"good"`. -/
def matchVerifier : VerifierIface :=
  { verify := fun s _ => Except.ok
      { status := if s = "good" then VerificationOutcome.success
                  else VerificationOutcome.failure } }

/-- The minimal subclass reward hook: no additional components. -/
def nullHook : Action → String → VerificationResult → List (String × Rat) :=
  fun _ _ _ => []

/-- A set-up environment over a two-item task source, no step budget. -/
def envTwo : BaseEnvironment :=
  { dataset := { items := [some (dpFix "q0" "a0"), some (dpFix "q1" "a1")],
                 generative := false }
    verifier := matchVerifier
    extractor := idExtractor
    max_steps := none
    reward_hook := nullHook
    is_setup := true
    state := get_initial_state }

/-- `envTwo` with a step budget of 1. -/
def envBudget1 : BaseEnvironment :=
  { envTwo with max_steps := some 1 }

/-- `envTwo` with a step budget of 0. -/
def envBudget0 : BaseEnvironment :=
  { envTwo with max_steps := some 0 }

/-- `envTwo` with an empty, non-generative task source. -/
def envEmpty : BaseEnvironment :=
  { envTwo with dataset := { items := [], generative := false } }

/-- `envTwo` with a verifier whose `cleanup` hook raises. -/
def envCleanupFail : BaseEnvironment :=
  { envTwo with verifier :=
      { matchVerifier with cleanup_hook := some (Except.error "cleanup failed") } }

/-- `envTwo` with a reward hook that overrides `correctness` and adds a
second component. -/
def envHook : BaseEnvironment :=
  { envTwo with reward_hook := fun _ _ _ => [("correctness", 5), ("style", 2)] }

/-- `envTwo` three (logical) steps into an episode, for instantiating the
cyclic-sampling theorem. -/
def envCs3 : BaseEnvironment :=
  { envTwo with current_step := 3 }

/-- An action the `matchVerifier` accepts. -/
def actGood : Action :=
  { problem_statement := "p", llm_response := "good", final_answer := some "a0" }

/-- An action the `matchVerifier` rejects. -/
def actBad : Action :=
  { problem_statement := "p", llm_response := "bad", final_answer := some "a0" }

/-- The environment object after a budget-1 episode has genuinely ended:
`reset` followed by the single in-budget `step`. -/
def envEnded : BaseEnvironment :=
  (step (reset envBudget1).2 actGood).2

/-- The observation the sampler produces at step index 0 over the two-item
fixture source. -/
def obsIdx0 : Observation :=
  { question := "q0"
    context := [("final_answer", Val.vStr "a0"), ("difficulty", Val.vNone),
                ("rationale", Val.vNone)]
    metadata := some [("step", Val.vNat 0), ("datapoint_id", Val.vStr (toString 0)),
                      ("verified", Val.vBool false)] }

/-- The environment object produced by `reset envBudget1`, written out. -/
def resetEnvB1 : BaseEnvironment :=
  { envBudget1 with
      state := { get_initial_state with current_datapoint := some (dpFix "q0" "a0") }
      last_observation := some obsIdx0 }

/-- The observation the sampler produces at step index 1 over the two-item
fixture source. -/
def obsIdx1 : Observation :=
  { question := "q1"
    context := [("final_answer", Val.vStr "a1"), ("difficulty", Val.vNone),
                ("rationale", Val.vNone)]
    metadata := some [("step", Val.vNat 1), ("datapoint_id", Val.vStr (toString 1)),
                      ("verified", Val.vBool false)] }

/-- The environment object produced by `reset envTwo`, written out. -/
def resetEnvT : BaseEnvironment :=
  { envTwo with
      state := { get_initial_state with current_datapoint := some (dpFix "q0" "a0") }
      last_observation := some obsIdx0 }

/-! ### Association-list dictionary lemmas -/

@[simp] theorem dictKeys_nil {α : Type} : dictKeys ([] : List (String × α)) = [] := rfl

@[simp] theorem dictKeys_cons {α : Type} (p : String × α) (t : List (String × α)) :
    dictKeys (p :: t) = p.1 :: dictKeys t := rfl

theorem dictGet?_eq_none {α : Type} {l : List (String × α)} {k : String}
    (h : k ∉ dictKeys l) : dictGet? l k = none := by
  induction l with
  | nil => rfl
  | cons p t ih =>
    simp only [dictKeys_cons, List.mem_cons, not_or] at h
    simp only [dictGet?]
    rw [if_neg (fun hh => h.1 hh.symm)]
    exact ih h.2

theorem dictGet?_overwrite {α : Type} {l : List (String × α)} {k : String} (v : α)
    (h : (dictGet? l k).isSome = true) :
    dictGet? (l.map (fun p => if p.1 = k then (k, v) else p)) k = some v := by
  induction l with
  | nil => simp [dictGet?] at h
  | cons p t ih =>
    by_cases hk : p.1 = k
    · rw [List.map_cons, if_pos hk]
      simp [dictGet?]
    · simp only [dictGet?] at h
      rw [if_neg hk] at h
      rw [List.map_cons, if_neg hk]
      simp only [dictGet?]
      rw [if_neg hk]
      exact ih h

theorem dictGet?_overwrite_ne {α : Type} {l : List (String × α)} {k k1 : String} (v : α)
    (hne : k1 ≠ k) :
    dictGet? (l.map (fun p => if p.1 = k then (k, v) else p)) k1 = dictGet? l k1 := by
  induction l with
  | nil => rfl
  | cons p t ih =>
    by_cases hk : p.1 = k
    · rw [List.map_cons, if_pos hk]
      simp only [dictGet?]
      rw [if_neg (Ne.symm hne), if_neg (fun hh : p.1 = k1 => hne (hk ▸ hh).symm), ih]
    · rw [List.map_cons, if_neg hk]
      simp only [dictGet?]
      rw [ih]

theorem dictGet?_append_single {α : Type} {l : List (String × α)} {k : String} (v : α)
    (h : dictGet? l k = none) :
    dictGet? (l ++ [(k, v)]) k = some v := by
  induction l with
  | nil => simp [dictGet?]
  | cons p t ih =>
    by_cases hk : p.1 = k
    · simp only [dictGet?] at h
      rw [if_pos hk] at h
      exact absurd h (by simp)
    · simp only [dictGet?] at h
      rw [if_neg hk] at h
      rw [List.cons_append]
      simp only [dictGet?]
      rw [if_neg hk]
      exact ih h

theorem dictGet?_append_single_ne {α : Type} {l : List (String × α)} {k k1 : String} (v : α)
    (hne : k1 ≠ k) :
    dictGet? (l ++ [(k, v)]) k1 = dictGet? l k1 := by
  induction l with
  | nil => simp [dictGet?, if_neg (Ne.symm hne)]
  | cons p t ih =>
    rw [List.cons_append]
    simp only [dictGet?]
    rw [ih]

theorem dictGet?_dictInsert_self {α : Type} (l : List (String × α)) (k : String) (v : α) :
    dictGet? (dictInsert l k v) k = some v := by
  unfold dictInsert
  split
  case isTrue h => exact dictGet?_overwrite v h
  case isFalse h =>
    exact dictGet?_append_single v (by simpa using h)

theorem dictGet?_dictInsert_ne {α : Type} (l : List (String × α)) {k k1 : String} (v : α)
    (hne : k1 ≠ k) :
    dictGet? (dictInsert l k v) k1 = dictGet? l k1 := by
  unfold dictInsert
  split
  · exact dictGet?_overwrite_ne v hne
  · exact dictGet?_append_single_ne v hne

theorem dictUnion_cons {α : Type} (a : List (String × α)) (p : String × α)
    (t : List (String × α)) :
    dictUnion a (p :: t) = dictUnion (dictInsert a p.1 p.2) t := rfl

theorem dictGet?_dictUnion_of_none {α : Type} (a : List (String × α))
    {b : List (String × α)} {k : String} (h : dictGet? b k = none) :
    dictGet? (dictUnion a b) k = dictGet? a k := by
  induction b generalizing a with
  | nil => rfl
  | cons p t ih =>
    rw [dictUnion_cons]
    have h1 : ¬ p.1 = k := by
      intro hh
      simp only [dictGet?] at h
      rw [if_pos hh] at h
      exact absurd h (by simp)
    simp only [dictGet?] at h
    rw [if_neg h1] at h
    rw [ih _ h, dictGet?_dictInsert_ne _ _ (fun hh => h1 hh.symm)]

theorem dictGet?_dictUnion_of_some {α : Type} (a : List (String × α))
    {b : List (String × α)} {k : String} {v : α}
    (hnd : (dictKeys b).Nodup) (h : dictGet? b k = some v) :
    dictGet? (dictUnion a b) k = some v := by
  induction b generalizing a with
  | nil => simp [dictGet?] at h
  | cons p t ih =>
    rw [dictUnion_cons]
    rw [dictKeys_cons, List.nodup_cons] at hnd
    by_cases hk : p.1 = k
    · have hv : p.2 = v := by
        simp only [dictGet?] at h
        rw [if_pos hk] at h
        exact Option.some.inj h
      have hkt : dictGet? t k = none :=
        dictGet?_eq_none (fun hmem => hnd.1 (hk ▸ hmem))
      rw [dictGet?_dictUnion_of_none _ hkt, ← hk, ← hv]
      exact dictGet?_dictInsert_self a p.1 p.2
    · simp only [dictGet?] at h
      rw [if_neg hk] at h
      exact ih (dictInsert a p.1 p.2) hnd.2 h

/-! ### Frame lemmas: which fields each operation can touch -/

theorem compute_reward_frame (e : BaseEnvironment) (a : Action) (x : String)
    (v : VerificationResult) :
    (compute_reward e a x v).2 = { e with state := (compute_reward e a x v).2.state } := rfl

theorem sample_datapoint_frame (e : BaseEnvironment) :
    (sample_datapoint e).2 = { e with state := (sample_datapoint e).2.state } := by
  simp only [sample_datapoint]
  split
  · rfl
  · split
    · rfl
    · split
      · rfl
      · rfl

theorem get_next_observation_frame (e : BaseEnvironment) :
    (get_next_observation e).2
      = { e with dataset := (get_next_observation e).2.dataset,
                 state := (get_next_observation e).2.state } := by
  simp only [get_next_observation]
  split
  · split
    · split
      · rfl
      · rw [sample_datapoint_frame]
    · rfl
  · rw [sample_datapoint_frame]

theorem sample_datapoint_state_frame (e : BaseEnvironment) :
    (sample_datapoint e).2.state
      = { e.state with
            current_datapoint := (sample_datapoint e).2.state.current_datapoint } := by
  simp only [sample_datapoint]
  split
  · rfl
  · split
    · rfl
    · split
      · rfl
      · rfl

theorem get_next_observation_state_frame (e : BaseEnvironment) :
    (get_next_observation e).2.state
      = { e.state with
            current_datapoint := (get_next_observation e).2.state.current_datapoint } := by
  simp only [get_next_observation]
  split
  · split
    · split
      · rfl
      · rw [sample_datapoint_state_frame]
    · rfl
  · rw [sample_datapoint_state_frame]

@[simp] theorem get_next_observation_state_attempts (e : BaseEnvironment) :
    (get_next_observation e).2.state.attempts = e.state.attempts := by
  conv_lhs => rw [get_next_observation_state_frame]

@[simp] theorem get_next_observation_state_success_rate (e : BaseEnvironment) :
    (get_next_observation e).2.state.success_rate = e.state.success_rate := by
  conv_lhs => rw [get_next_observation_state_frame]

@[simp] theorem get_next_observation_current_step (e : BaseEnvironment) :
    (get_next_observation e).2.current_step = e.current_step := by
  conv_lhs => rw [get_next_observation_frame]

@[simp] theorem get_next_observation_max_steps (e : BaseEnvironment) :
    (get_next_observation e).2.max_steps = e.max_steps := by
  conv_lhs => rw [get_next_observation_frame]

@[simp] theorem get_next_observation_episode_ended (e : BaseEnvironment) :
    (get_next_observation e).2.episode_ended = e.episode_ended := by
  conv_lhs => rw [get_next_observation_frame]

@[simp] theorem get_next_observation_is_setup (e : BaseEnvironment) :
    (get_next_observation e).2.is_setup = e.is_setup := by
  conv_lhs => rw [get_next_observation_frame]

@[simp] theorem get_next_observation_last_observation (e : BaseEnvironment) :
    (get_next_observation e).2.last_observation = e.last_observation := by
  conv_lhs => rw [get_next_observation_frame]

@[simp] theorem get_next_observation_episode_history (e : BaseEnvironment) :
    (get_next_observation e).2.episode_history = e.episode_history := by
  conv_lhs => rw [get_next_observation_frame]

@[simp] theorem compute_reward_current_step (e : BaseEnvironment) (a : Action)
    (x : String) (v : VerificationResult) :
    (compute_reward e a x v).2.current_step = e.current_step := rfl

@[simp] theorem compute_reward_max_steps (e : BaseEnvironment) (a : Action)
    (x : String) (v : VerificationResult) :
    (compute_reward e a x v).2.max_steps = e.max_steps := rfl

@[simp] theorem compute_reward_episode_ended (e : BaseEnvironment) (a : Action)
    (x : String) (v : VerificationResult) :
    (compute_reward e a x v).2.episode_ended = e.episode_ended := rfl

@[simp] theorem compute_reward_is_setup (e : BaseEnvironment) (a : Action)
    (x : String) (v : VerificationResult) :
    (compute_reward e a x v).2.is_setup = e.is_setup := rfl

@[simp] theorem compute_reward_last_observation (e : BaseEnvironment) (a : Action)
    (x : String) (v : VerificationResult) :
    (compute_reward e a x v).2.last_observation = e.last_observation := rfl

@[simp] theorem compute_reward_episode_history (e : BaseEnvironment) (a : Action)
    (x : String) (v : VerificationResult) :
    (compute_reward e a x v).2.episode_history = e.episode_history := rfl

/-! ### The normal (non-short-circuited, collaborator-successful) path of `step` -/

theorem step_normal_eq (e : BaseEnvironment) (a : Action) (o : Observation)
    (ex0 : Option String) (v : VerificationResult)
    (hms : max_steps_reached e.max_steps e.current_step = false)
    (hsetup : e.is_setup = true)
    (hend : e.episode_ended = false)
    (hobs : e.last_observation = some o)
    (hex : e.extractor.extract a.llm_response = Except.ok ex0)
    (hv : e.verifier.verify (ex0.getD "") a.final_answer = Except.ok v) :
    step e a =
      (let env2 : BaseEnvironment :=
        { e with current_step := e.current_step + 1,
                 episode_history := e.episode_history ++ [(o, a)] }
       let rewarded := compute_reward env2 a (ex0.getD "") v
       let done := is_done rewarded.2
       let sampled := if done then (get_terminal_observation rewarded.2, rewarded.2)
                      else get_next_observation rewarded.2
       let env5 := { sampled.2 with last_observation := some sampled.1,
                                    episode_ended := done }
       (Except.ok
         { observation := sampled.1
           reward := rewarded.1.1
           rewards_dict := rewarded.1.2
           done := done
           info := [("extraction_result", InfoVal.str (ex0.getD "")),
                    ("verification_result", InfoVal.vres v),
                    ("step", InfoVal.nat env5.current_step),
                    ("state", InfoVal.state env5.state)] },
        env5)) := by
  unfold step
  simp only [hms, hsetup, hend, hobs, hex, hv, Bool.false_eq_true, if_false,
    Bool.true_eq_false, reduceCtorEq, if_true, if_neg, ite_false]

theorem step_extract_error_eq (e : BaseEnvironment) (a : Action) (o : Observation)
    (msg : String)
    (hms : max_steps_reached e.max_steps e.current_step = false)
    (hsetup : e.is_setup = true) (hend : e.episode_ended = false)
    (hobs : e.last_observation = some o)
    (hex : e.extractor.extract a.llm_response = Except.error msg) :
    step e a = (Except.error (StepError.collaborator msg),
      { e with current_step := e.current_step + 1,
               episode_history := e.episode_history ++ [(o, a)] }) := by
  unfold step
  rw [if_neg (by simp [hms]), hsetup, if_neg (by simp), if_neg (by simp [hend]), hobs]
  simp only [hex]

theorem step_verify_error_eq (e : BaseEnvironment) (a : Action) (o : Observation)
    (ex0 : Option String) (msg : String)
    (hms : max_steps_reached e.max_steps e.current_step = false)
    (hsetup : e.is_setup = true) (hend : e.episode_ended = false)
    (hobs : e.last_observation = some o)
    (hex : e.extractor.extract a.llm_response = Except.ok ex0)
    (hv : e.verifier.verify (ex0.getD "") a.final_answer = Except.error msg) :
    step e a = (Except.error (StepError.collaborator msg),
      { e with current_step := e.current_step + 1,
               episode_history := e.episode_history ++ [(o, a)] }) := by
  unfold step
  rw [if_neg (by simp [hms]), hsetup, if_neg (by simp), if_neg (by simp [hend]), hobs]
  simp only [hex, hv]

/-! ### Congruence in `max_steps`: no operation except the budget checks reads it -/

@[simp] theorem max_steps_reached_none (cs : Nat) :
    max_steps_reached none cs = false := rfl

@[simp] theorem max_steps_reached_zero (cs : Nat) :
    max_steps_reached (some 0) cs = false := rfl

theorem max_steps_reached_some_iff (n : Int) (cs : Nat) :
    max_steps_reached (some n) cs = true ↔ (n ≠ 0 ∧ n ≤ (cs : Int)) := by
  simp only [max_steps_reached]
  by_cases h : n = 0
  · simp [h]
  · simp [h]

theorem get_terminal_observation_max_steps_congr (e : BaseEnvironment) (m : Option Int) :
    get_terminal_observation { e with max_steps := m } = get_terminal_observation e := rfl

theorem compute_reward_max_steps_congr (e : BaseEnvironment) (m : Option Int)
    (a : Action) (x : String) (v : VerificationResult) :
    compute_reward { e with max_steps := m } a x v
      = ((compute_reward e a x v).1,
         { (compute_reward e a x v).2 with max_steps := m }) := rfl

theorem compute_reward_mk_ms (ds : DatasetIface) (vf : VerifierIface)
    (exr : ExtractorIface) (ta : Option (Except String Unit))
    (rh : Action → String → VerificationResult → List (String × Rat))
    (isu : Bool) (cs : Nat) (ee : Bool) (st : StateMap) (lo : Option Observation)
    (hist : List (Observation × Action)) (m1 m2 : Option Int)
    (a : Action) (x : String) (v : VerificationResult) :
    compute_reward (BaseEnvironment.mk ds vf exr m2 ta rh isu cs ee st lo hist) a x v
      = ((compute_reward (BaseEnvironment.mk ds vf exr m1 ta rh isu cs ee st lo hist) a x v).1,
         { (compute_reward (BaseEnvironment.mk ds vf exr m1 ta rh isu cs ee st lo hist) a x v).2
             with max_steps := m2 }) := rfl

theorem sample_datapoint_max_steps_congr (e : BaseEnvironment) (m : Option Int) :
    sample_datapoint { e with max_steps := m }
      = ((sample_datapoint e).1, { (sample_datapoint e).2 with max_steps := m }) := by
  simp only [sample_datapoint]
  split
  · rfl
  · split
    · rfl
    · split
      · rfl
      · rfl

theorem get_next_observation_max_steps_congr (e : BaseEnvironment) (m : Option Int) :
    get_next_observation { e with max_steps := m }
      = ((get_next_observation e).1, { (get_next_observation e).2 with max_steps := m }) := by
  simp only [get_next_observation]
  split
  · split
    · split
      · rfl
      · exact sample_datapoint_max_steps_congr { e with dataset := _ } m
    · rfl
  · exact sample_datapoint_max_steps_congr e m

theorem get_next_observation_empty (e : BaseEnvironment)
    (hempty : e.dataset.items = []) (hgen : e.dataset.generative = false) :
    get_next_observation e = (get_terminal_observation e, e) := by
  unfold get_next_observation
  rw [hempty, hgen]
  simp

/-! ### Claim theorems -/

/-- **C9.** Whenever `step` takes the budget short-circuit path (a step budget
is configured and `current_step` has reached it), the entire episode state is
left unchanged — the environment object is returned exactly as it was, so
`current_step`, the episode history, `episode_ended`, `last_observation` and
the state map all keep their prior values and `episode_ended` is not set —
even though the returned `StepResult` has `done = true`. -/
theorem C9_short_circuit_is_pure (e : BaseEnvironment) (a : Action)
    (h : max_steps_reached e.max_steps e.current_step = true) :
    (step e a).2 = e
  ∧ (step e a).1 = Except.ok (max_steps_result e)
  ∧ (max_steps_result e).done = true := by
  unfold step
  rw [if_pos h]
  exact ⟨rfl, rfl, rfl⟩

/-- Witness for **C9** at the state actually produced by a budget-1 episode. -/
theorem C9_short_circuit_is_pure_witness :
    (step envEnded actGood).2 = envEnded
  ∧ (step envEnded actGood).1 = Except.ok (max_steps_result envEnded)
  ∧ (max_steps_result envEnded).done = true :=
  C9_short_circuit_is_pure envEnded actGood (by decide)

/-- **C3.** (counterexample) The claim says every `teardown` call on a set-up
environment leaves `is_setup` false even when a collaborator cleanup hook
raises. On an environment whose verifier cleanup hook raises, `teardown`
re-raises but `is_setup` remains `true`: the clear is only reached after all
cleanup hooks return. -/
theorem C3_counterexample :
    envCleanupFail.is_setup = true
  ∧ (teardown envCleanupFail).1 = some "cleanup failed"
  ∧ (teardown envCleanupFail).2.is_setup = true :=
  ⟨rfl, rfl, rfl⟩

/-- **C3** (amended). For an environment in the set-up state, `teardown`
clears `is_setup` exactly when it returns normally; when a collaborator
cleanup hook raises, the failure is re-raised and `is_setup` remains true
(the clear happens only after all cleanup hooks have returned), so a failed
teardown leaves the environment still marked as set up. -/
theorem C3_amended (e : BaseEnvironment) (hsetup : e.is_setup = true) :
    ((teardown e).1 = none → (teardown e).2.is_setup = false)
  ∧ (∀ msg, (teardown e).1 = some msg → (teardown e).2.is_setup = true) := by
  unfold teardown
  rw [hsetup, if_neg (by simp)]
  cases h1 : runHook e.verifier.cleanup_hook with
  | some e1 => simp [hsetup]
  | none =>
    cases h2 : runHook e.dataset.cleanup_hook with
    | some e2 => simp [hsetup]
    | none =>
      cases h3 : runHook e.extractor.cleanup_hook with
      | some e3 => simp [hsetup]
      | none => simp

/-- Witness for **C3** (amended): hooks absent → cleared; raising verifier
cleanup → still set up. -/
theorem C3_amended_witness :
    (teardown envTwo).2.is_setup = false
  ∧ (teardown envCleanupFail).2.is_setup = true :=
  ⟨(C3_amended envTwo rfl).1 rfl,
   (C3_amended envCleanupFail rfl).2 "cleanup failed" rfl⟩

/-- **C7.** For an environment whose task source is empty and not generative,
`reset` returns (rather than raises) an observation whose metadata marks it
terminal: the data error is absorbed by the sampler. -/
theorem C7_empty_source_reset (e : BaseEnvironment)
    (hsetup : e.is_setup = true)
    (hempty : e.dataset.items = [])
    (hgen : e.dataset.generative = false) :
    ∃ obs, (reset e).1 = Except.ok obs
      ∧ obs.metadata.map (fun m => dictGet? m "terminal")
          = some (some (Val.vBool true)) := by
  unfold reset
  rw [hsetup, if_neg (by simp)]
  simp only []
  rw [get_next_observation_empty
    { e with current_step := 0, episode_ended := false,
             episode_history := [], state := get_initial_state } hempty hgen]
  exact ⟨_, rfl, by simp [get_terminal_observation, dictGet?]⟩

/-- Witness for **C7** on the concrete empty-source fixture. -/
theorem C7_empty_source_reset_witness :
    (reset envEmpty).1.toOption.map
        (fun obs => obs.metadata.map (fun m => dictGet? m "terminal"))
      = some (some (some (Val.vBool true))) := by
  obtain ⟨obs, h1, h2⟩ := C7_empty_source_reset envEmpty rfl rfl rfl
  rw [h1]
  simp [Except.toOption, h2]

/-- **C4.** (counterexample) The claim says every `step` call after a step
returned `done = true` raises an ordering error until `reset`. In a budget-1
episode the single in-budget step returns `done = true`, yet the next `step`
call *returns* the budget short-circuit `StepResult` (the budget pre-check
runs before the `episode_ended` ordering check), not an error. -/
theorem C4_counterexample :
    ((step (reset envBudget1).2 actGood).1.toOption.map StepResult.done = some true)
  ∧ envEnded.episode_ended = true
  ∧ (step envEnded actGood).1 = Except.ok (max_steps_result envEnded) :=
  ⟨rfl, rfl, rfl⟩

/-- **C4** (amended). After a previous step returned `done = true` within the
episode: if the configured budget is reached (which the base termination
check guarantees whenever it was the one that ended the episode — third
conjunct), a further `step` call returns the budget short-circuit
`StepResult` rather than raising; the `episode_ended` ordering error is
raised only in the residual situation where the episode is marked ended but
the budget pre-check does not fire. Only `reset` clears `episode_ended`. -/
theorem C4_amended (e : BaseEnvironment) (a : Action) :
    (e.episode_ended = true → max_steps_reached e.max_steps e.current_step = true →
       (step e a).1 = Except.ok (max_steps_result e))
  ∧ (e.episode_ended = true → max_steps_reached e.max_steps e.current_step = false →
       e.is_setup = true →
       (step e a).1 = Except.error StepError.episode_has_ended)
  ∧ (e.episode_ended = false → (step e a).2.episode_ended = true →
       max_steps_reached (step e a).2.max_steps (step e a).2.current_step = true) := by
  refine ⟨?_, ?_, ?_⟩
  · intro _ h2
    unfold step
    rw [if_pos h2]
  · intro h1 h2 h3
    unfold step
    rw [if_neg (by simp [h2]), h3, if_neg (by simp), if_pos h1]
  · intro h1 h2
    by_cases hms : max_steps_reached e.max_steps e.current_step = true
    · have hstep : step e a = (Except.ok (max_steps_result e), e) := by
        unfold step
        rw [if_pos hms]
      rw [hstep] at h2
      rw [h1] at h2
      exact absurd h2 (by simp)
    · rw [Bool.not_eq_true] at hms
      by_cases hsetup : e.is_setup = true
      · cases hobs : e.last_observation with
        | none =>
          have hstep : step e a = (Except.error StepError.no_observation, e) := by
            unfold step
            rw [if_neg (by simp [hms]), hsetup, if_neg (by simp), if_neg (by simp [h1]), hobs]
          rw [hstep] at h2
          rw [h1] at h2
          exact absurd h2 (by simp)
        | some o =>
          cases hex : e.extractor.extract a.llm_response with
          | error msg =>
            have hstep : (step e a).2.episode_ended = e.episode_ended := by
              unfold step
              rw [if_neg (by simp [hms]), hsetup, if_neg (by simp),
                  if_neg (by simp [h1]), hobs]
              simp only [hex]
            rw [hstep, h1] at h2
            exact absurd h2 (by simp)
          | ok ex0 =>
            cases hv : e.verifier.verify (ex0.getD "") a.final_answer with
            | error msg =>
              have hstep : (step e a).2.episode_ended = e.episode_ended := by
                unfold step
                rw [if_neg (by simp [hms]), hsetup, if_neg (by simp),
                    if_neg (by simp [h1]), hobs]
                simp only [hex, hv]
              rw [hstep, h1] at h2
              exact absurd h2 (by simp)
            | ok v =>
              rw [step_normal_eq e a o ex0 v hms hsetup h1 hobs hex hv] at h2 ⊢
              simp only [] at h2 ⊢
              by_cases hdone : is_done (compute_reward
                  { e with current_step := e.current_step + 1,
                           episode_history := e.episode_history ++ [(o, a)] } a
                  (ex0.getD "") v).2 = true
              · simp only [hdone, if_true] at h2 ⊢
                simpa [is_done] using hdone
              · rw [Bool.not_eq_true] at hdone
                simp only [hdone] at h2
                exact absurd h2 (by simp)
      · have hstep : step e a = (Except.error StepError.not_setup, e) := by
          unfold step
          rw [if_neg (by simp [hms])]
          rw [Bool.not_eq_true] at hsetup
          rw [hsetup, if_pos rfl]
        rw [hstep] at h2
        rw [h1] at h2
        exact absurd h2 (by simp)

/-- Witness for **C4** (amended) at the genuinely-ended budget-1 episode. -/
theorem C4_amended_witness :
    (step envEnded actGood).1 = Except.ok (max_steps_result envEnded) :=
  (C4_amended envEnded actGood).1 (by decide) (by decide)

/-- **C1.** (counterexample) With step budget `N = 1`, after `reset` the
`N`-th (= first) `step` call returns `done = true` but goes through the
normal path: the reward is the computed `1` (not `0`), the breakdown is
`{"correctness": 1}` (not empty), `info` has no `"reason"` key, and `info`
carries the extraction result — so the extractor/verifier/aggregator *were*
invoked, contradicting the claimed short-circuit on step `N`. -/
theorem C1_counterexample :
    (reset envBudget1).2 = resetEnvB1
  ∧ ((step resetEnvB1 actGood).1.toOption.map StepResult.done = some true)
  ∧ ((step resetEnvB1 actGood).1.toOption.map StepResult.reward = some 1)
  ∧ ((step resetEnvB1 actGood).1.toOption.map StepResult.rewards_dict
       = some [("correctness", 1)])
  ∧ ((step resetEnvB1 actGood).1.toOption.map (fun r => dictGet? r.info "reason")
       = some none)
  ∧ ((step resetEnvB1 actGood).1.toOption.map
       (fun r => dictGet? r.info "extraction_result")
       = some (some (InfoVal.str "good"))) := by
  have hstep := step_normal_eq resetEnvB1 actGood obsIdx0 (some "good")
    { status := VerificationOutcome.success } (by decide) rfl rfl rfl rfl rfl
  refine ⟨rfl, ?_, ?_, ?_, ?_, ?_⟩ <;>
    rw [hstep] <;>
    first
      | decide
      | norm_num [Except.toOption, compute_reward, get_initial_state, dictInsert,
          dictGet?, dictUnion, sumValues, is_done, max_steps_reached, resetEnvB1,
          envBudget1, envTwo, nullHook]

/-- **C1** (amended). For a configured budget `N ≥ 1`, a `step` call made with
`k` completed steps (`current_step = k`) and succeeding collaborators:
if `k + 1 < N` it returns `done = false`; the call that brings the counter to
`N` (`k + 1 = N`) returns `done = true` through the *normal* path — reward
computed by extractor/verifier/aggregator, `info` carrying the extraction
result and no `"reason"` key; only once `current_step ≥ N` (i.e. from call
`N + 1` on) does the pre-step short-circuit fire, returning reward `0`, an
empty breakdown and `info.reason = "max_steps_reached"` without invoking the
collaborators and leaving the environment untouched. -/
theorem C1_amended (e : BaseEnvironment) (a : Action) (o : Observation)
    (ex0 : Option String) (v : VerificationResult) (N : Int)
    (hms : e.max_steps = some N) (hN : 1 ≤ N)
    (hsetup : e.is_setup = true) (hend : e.episode_ended = false)
    (hobs : e.last_observation = some o)
    (hex : e.extractor.extract a.llm_response = Except.ok ex0)
    (hv : e.verifier.verify (ex0.getD "") a.final_answer = Except.ok v) :
    ((e.current_step : Int) + 1 < N →
       ∃ r, (step e a).1 = Except.ok r ∧ r.done = false)
  ∧ ((e.current_step : Int) + 1 = N →
       ∃ r, (step e a).1 = Except.ok r ∧ r.done = true
         ∧ dictGet? r.info "reason" = none
         ∧ dictGet? r.info "extraction_result" = some (InfoVal.str (ex0.getD "")))
  ∧ (N ≤ (e.current_step : Int) →
       (step e a).1 = Except.ok (max_steps_result e) ∧ (step e a).2 = e) := by
  refine ⟨?_, ?_, ?_⟩
  · intro hlt
    have hms0 : max_steps_reached e.max_steps e.current_step = false := by
      rw [hms, Bool.eq_false_iff, Ne, max_steps_reached_some_iff]
      omega
    rw [step_normal_eq e a o ex0 v hms0 hsetup hend hobs hex hv]
    simp only []
    refine ⟨_, rfl, ?_⟩
    simp only [is_done, compute_reward_max_steps, compute_reward_current_step, hms]
    rw [Bool.eq_false_iff, Ne, max_steps_reached_some_iff]
    push_cast
    omega
  · intro heq
    have hms0 : max_steps_reached e.max_steps e.current_step = false := by
      rw [hms, Bool.eq_false_iff, Ne, max_steps_reached_some_iff]
      omega
    rw [step_normal_eq e a o ex0 v hms0 hsetup hend hobs hex hv]
    simp only []
    refine ⟨_, rfl, ?_, by simp [dictGet?], by simp [dictGet?]⟩
    simp only [is_done, compute_reward_max_steps, compute_reward_current_step, hms]
    rw [max_steps_reached_some_iff]
    push_cast
    omega
  · intro hge
    have hms1 : max_steps_reached e.max_steps e.current_step = true := by
      rw [hms, max_steps_reached_some_iff]
      omega
    unfold step
    rw [if_pos hms1]
    exact ⟨rfl, rfl⟩

/-- Witness for **C1** (amended) at the post-reset budget-1 environment: the
first (= `N`-th) call returns `done = true` with `info` lacking a `"reason"`
entry. -/
theorem C1_amended_witness :
    ((step resetEnvB1 actGood).1.toOption.map StepResult.done = some true)
  ∧ ((step resetEnvB1 actGood).1.toOption.map (fun r => dictGet? r.info "reason")
       = some none) := by
  obtain ⟨r, h1, h2, h3, h4⟩ :=
    (C1_amended resetEnvB1 actGood obsIdx0 (some "good")
      { status := VerificationOutcome.success } 1 rfl (by norm_num) rfl rfl rfl rfl
      rfl).2.1 (by decide)
  rw [h1]
  simp [Except.toOption, h2, h3]

/-- **C5.** For a completed step, the aggregator first sets the base
`correctness` component (`1` on verification success, else `0`), then merges
the hook's components with the hook winning on any key collision, and the
returned scalar reward is exactly the sum of the merged breakdown's values. -/
theorem C5_reward_aggregation (e : BaseEnvironment) (a : Action) (x : String)
    (v : VerificationResult)
    (hnd : (dictKeys (e.reward_hook a x v)).Nodup) :
    (∀ k val, dictGet? (e.reward_hook a x v) k = some val →
        dictGet? (compute_reward e a x v).1.2 k = some val)
  ∧ (dictGet? (e.reward_hook a x v) "correctness" = none →
        dictGet? (compute_reward e a x v).1.2 "correctness"
          = some (if v.status = VerificationOutcome.success then 1 else 0))
  ∧ (compute_reward e a x v).1.1 = sumValues (compute_reward e a x v).1.2 := by
  refine ⟨?_, ?_, rfl⟩
  · intro k val hk
    simp only [compute_reward]
    exact dictGet?_dictUnion_of_some _ hnd hk
  · intro h
    simp only [compute_reward]
    rw [dictGet?_dictUnion_of_none _ h, dictGet?_dictInsert_self]
    rcases v with ⟨st⟩
    cases st
    · norm_num
    · simp only [reduceCtorEq, if_false]
      norm_num

/-- Witness for **C5**: a hook overriding `correctness` wins the merge; with
no hook components the base `correctness` value `1` survives. -/
theorem C5_reward_aggregation_witness :
    dictGet? (compute_reward envHook actGood "x"
        { status := VerificationOutcome.success }).1.2 "correctness" = some 5
  ∧ dictGet? (compute_reward envTwo actGood "x"
        { status := VerificationOutcome.success }).1.2 "correctness" = some 1 := by
  constructor
  · exact (C5_reward_aggregation envHook actGood "x"
      { status := VerificationOutcome.success } (by decide)).1 "correctness" 5 rfl
  · have h := (C5_reward_aggregation envTwo actGood "x"
      { status := VerificationOutcome.success } (by decide)).2.1 rfl
    simpa using h

/-- **C6.** The sampler deterministically reads the task item at index
`current_step mod size(task_source)` (first two conjuncts: for any non-empty
source with a well-formed item at that index, the produced observation is
that item's question and its metadata records exactly that index); in
particular, over the two-item fixture source with no step budget, steps
1, 2, 3 are served the items at indices 0, 1, 0 (last three conjuncts:
`reset` serves `"q0"` to step 1, step 1's result serves `"q1"` to step 2,
and step 2's result serves `"q0"` to step 3). -/
theorem C6_cyclic_sampling (e : BaseEnvironment) (dp : DataPointRef) (q : String)
    (hlen : ¬ e.dataset.items.length = 0)
    (hdp : e.dataset.items.getD (e.current_step % e.dataset.items.length) none = some dp)
    (hq : dp.question = some q)
    (hqF : optStrFalsy dp.question = false)
    (hfaF : optStrFalsy dp.final_answer = false)
    (hmeta : dictGet? dp.metadata "datapoint_id" = none) :
    (get_next_observation e).1.question = q
  ∧ ((get_next_observation e).1.metadata.map (fun m => dictGet? m "datapoint_id"))
      = some (some (Val.vStr (toString (e.current_step % e.dataset.items.length))))
  ∧ ((reset envTwo).1.toOption.map Observation.question = some "q0")
  ∧ ((step (reset envTwo).2 actGood).1.toOption.map
      (fun r => r.observation.question) = some "q1")
  ∧ ((step (step (reset envTwo).2 actGood).2 actGood).1.toOption.map
      (fun r => r.observation.question) = some "q0") := by
  have key : (get_next_observation e).1
      = { question := dp.question.getD ""
          context := [("final_answer", optStrVal dp.final_answer),
                      ("difficulty", optStrVal dp.difficulty),
                      ("rationale", optStrVal dp.rationale)]
          metadata := some (dictUnion
            [("step", Val.vNat e.current_step),
             ("datapoint_id",
              Val.vStr (toString (e.current_step % e.dataset.items.length))),
             ("verified", (dictGet? dp.metadata "verified").getD (Val.vBool false))]
            dp.metadata) } := by
    unfold get_next_observation sample_datapoint
    rw [if_neg hlen, if_neg hlen]
    simp only [hdp, hqF, hfaF, Bool.or_self, Bool.false_eq_true, if_false]
  refine ⟨?_, ?_, rfl, rfl, rfl⟩
  · rw [key]
    simp [hq]
  · rw [key]
    simp only [Option.map]
    rw [dictGet?_dictUnion_of_none _ hmeta]
    simp only [dictGet?]
    rw [if_neg (by decide)]
    simp

/-- Witness for **C6**: three logical steps into an episode over the two-item
source, the sampler reads index `3 mod 2 = 1`. -/
theorem C6_cyclic_sampling_witness :
    (get_next_observation envCs3).1.question = "q1"
  ∧ ((get_next_observation envCs3).1.metadata.map (fun m => dictGet? m "datapoint_id"))
      = some (some (Val.vStr
          (toString (envCs3.current_step % envCs3.dataset.items.length)))) := by
  have h := C6_cyclic_sampling envCs3 (dpFix "q1" "a1") "q1"
    (by decide) rfl rfl rfl rfl rfl
  exact ⟨h.1, h.2.1⟩

/-- **C8.** The invariant "episode history length = `current_step`" is
preserved at the exit of every operation (`step` — including exits by a
raised extractor or verifier error —, `reset`, `setup`, `teardown`); a
successful `reset` establishes it with empty history and step counter 0, and
every `step` call that passes the ordering checks increments `current_step`
by exactly one and appends exactly the consumed (observation, action) pair,
whether or not the collaborators then raise. -/
theorem C8_history_invariant (e : BaseEnvironment) (a : Action) (h : histInv e) :
    histInv (step e a).2
  ∧ histInv (reset e).2
  ∧ histInv (setup e).2
  ∧ histInv (teardown e).2
  ∧ (∀ obs, (reset e).1 = Except.ok obs →
       (reset e).2.episode_history = [] ∧ (reset e).2.current_step = 0)
  ∧ (∀ o, max_steps_reached e.max_steps e.current_step = false → e.is_setup = true →
       e.episode_ended = false → e.last_observation = some o →
       (step e a).2.current_step = e.current_step + 1
       ∧ (step e a).2.episode_history = e.episode_history ++ [(o, a)]) := by
  have hlen : e.episode_history.length = e.current_step := h
  have hsetupInv : histInv (setup e).2 := by
    unfold setup
    repeat' split
    all_goals exact h
  have hteardownInv : histInv (teardown e).2 := by
    unfold teardown
    repeat' split
    all_goals exact h
  have hstepBoth :
      histInv (step e a).2
    ∧ (∀ o, max_steps_reached e.max_steps e.current_step = false → e.is_setup = true →
         e.episode_ended = false → e.last_observation = some o →
         (step e a).2.current_step = e.current_step + 1
         ∧ (step e a).2.episode_history = e.episode_history ++ [(o, a)]) := by
    by_cases hms : max_steps_reached e.max_steps e.current_step = true
    · have hs : step e a = (Except.ok (max_steps_result e), e) := by
        unfold step
        rw [if_pos hms]
      rw [hs]
      exact ⟨h, fun o h1 => absurd hms (by simp [h1])⟩
    · rw [Bool.not_eq_true] at hms
      by_cases hsu : e.is_setup = true
      · by_cases hee : e.episode_ended = true
        · have hs : step e a = (Except.error StepError.episode_has_ended, e) := by
            unfold step
            rw [if_neg (by simp [hms]), hsu, if_neg (by simp), if_pos hee]
          rw [hs]
          exact ⟨h, fun o h1 h2 h3 => absurd hee (by simp [h3])⟩
        · rw [Bool.not_eq_true] at hee
          cases hobs : e.last_observation with
          | none =>
            have hs : step e a = (Except.error StepError.no_observation, e) := by
              unfold step
              rw [if_neg (by simp [hms]), hsu, if_neg (by simp), if_neg (by simp [hee]),
                  hobs]
            rw [hs]
            refine ⟨h, fun o h1 h2 h3 h4 => ?_⟩
            exact absurd h4 (by simp)
          | some o =>
            cases hex : e.extractor.extract a.llm_response with
            | error msg =>
              have hs := step_extract_error_eq e a o msg hms hsu hee hobs hex
              rw [hs]
              refine ⟨by simp [histInv, hlen], fun o2 h1 h2 h3 h4 => ?_⟩
              obtain rfl : o = o2 := Option.some.inj h4
              exact ⟨rfl, rfl⟩
            | ok ex0 =>
              cases hv : e.verifier.verify (ex0.getD "") a.final_answer with
              | error msg =>
                have hs := step_verify_error_eq e a o ex0 msg hms hsu hee hobs hex hv
                rw [hs]
                refine ⟨by simp [histInv, hlen], fun o2 h1 h2 h3 h4 => ?_⟩
                obtain rfl : o = o2 := Option.some.inj h4
                exact ⟨rfl, rfl⟩
              | ok v =>
                rw [step_normal_eq e a o ex0 v hms hsu hee hobs hex hv]
                simp only []
                by_cases hdone : is_done (compute_reward
                    { e with current_step := e.current_step + 1,
                             episode_history := e.episode_history ++ [(o, a)] } a
                    (ex0.getD "") v).2 = true
                · simp only [hdone, if_true]
                  refine ⟨by simp [histInv, hlen], fun o2 h1 h2 h3 h4 => ?_⟩
                  obtain rfl : o = o2 := Option.some.inj h4
                  exact ⟨rfl, rfl⟩
                · rw [Bool.not_eq_true] at hdone
                  simp only [hdone, Bool.false_eq_true, if_false]
                  refine ⟨?_, fun o2 h1 h2 h3 h4 => ?_⟩
                  · simp [histInv, hlen]
                  · obtain rfl : o = o2 := Option.some.inj h4
                    exact ⟨by simp, by simp⟩
      · rw [Bool.not_eq_true] at hsu
        have hs : step e a = (Except.error StepError.not_setup, e) := by
          unfold step
          rw [if_neg (by simp [hms]), hsu, if_pos rfl]
        rw [hs]
        exact ⟨h, fun o h1 h2 => absurd hsu (by simp [h2])⟩
  have hresetBoth :
      histInv (reset e).2
    ∧ (∀ obs, (reset e).1 = Except.ok obs →
        (reset e).2.episode_history = [] ∧ (reset e).2.current_step = 0) := by
    unfold reset
    by_cases hsu : e.is_setup = true
    · rw [hsu, if_neg (by simp)]
      simp only []
      exact ⟨by simp [histInv], fun obs hok => by constructor <;> simp⟩
    · rw [Bool.not_eq_true] at hsu
      rw [hsu, if_pos rfl]
      rcases hset : setup e with ⟨fst, snd⟩
      cases fst with
      | some msg =>
        simp only []
        refine ⟨?_, fun obs hok => absurd hok (by simp)⟩
        rw [hset] at hsetupInv
        exact hsetupInv
      | none =>
        simp only []
        exact ⟨by simp [histInv], fun obs hok => by constructor <;> simp⟩
  exact ⟨hstepBoth.1, hresetBoth.1, hsetupInv, hteardownInv, hresetBoth.2, hstepBoth.2⟩

/-- Witness for **C8** on the two-item fixture environment (which satisfies
the invariant): the passing step appends one pair and increments the
counter. -/
theorem C8_history_invariant_witness :
    (step resetEnvB1 actGood).2.current_step = resetEnvB1.current_step + 1
  ∧ (step resetEnvB1 actGood).2.episode_history
      = resetEnvB1.episode_history ++ [(obsIdx0, actGood)] :=
  (C8_history_invariant resetEnvB1 actGood rfl).2.2.2.2.2 obsIdx0 (by decide) rfl rfl rfl

/-- **C2.** (code evaluation at the failing input) The aggregator computes
`total_attempts = attempts + 1` but never stores it back, so the attempt
counter stays `0` and the "incremental mean" degenerates to the latest
correctness value. Running Scenario B (verifier success on step 1 only, of
2) from `reset`: `success_rate` is `1` after step 1 but `0` — not the
claimed mean `1/2` — after step 2, and `attempts` remains `0` instead of
being incremented once per step. -/
theorem C2_success_rate_code_eval :
    (reset envTwo).2 = resetEnvT
  ∧ ((step resetEnvT actGood).2.state.success_rate = 1)
  ∧ ((step resetEnvT actGood).2.state.attempts = 0)
  ∧ ((step (step resetEnvT actGood).2 actBad).2.state.success_rate = 0)
  ∧ ((step (step resetEnvT actGood).2 actBad).2.state.attempts = 0) := by
  have h1 := step_normal_eq resetEnvT actGood obsIdx0 (some "good")
    { status := VerificationOutcome.success } rfl rfl rfl rfl rfl rfl
  have h2 := step_normal_eq ((step resetEnvT actGood).2) actBad obsIdx1 (some "bad")
    { status := VerificationOutcome.failure } (by decide) (by decide) (by decide)
    (by decide) rfl rfl
  refine ⟨rfl, ?_, ?_, ?_, ?_⟩
  · rw [h1]
    simp only []
    norm_num [is_done, compute_reward, resetEnvT, envTwo, get_initial_state]
  · rw [h1]
    simp only []
    norm_num [is_done, compute_reward, resetEnvT, envTwo, get_initial_state]
  · rw [h2]
    simp only []
    rw [h1]
    simp only []
    norm_num [is_done, compute_reward, resetEnvT, envTwo, get_initial_state]
    decide
  · rw [h2]
    simp only []
    rw [h1]
    simp only []
    norm_num [is_done, compute_reward, resetEnvT, envTwo, get_initial_state]

/-- **C10.** Constructed with `max_steps = 0` (as opposed to a positive
budget or `None`), the environment behaves exactly as with no budget:
Python `0` is falsy, so the pre-step budget short-circuit never fires, the
termination check `_is_done` always returns false, a returned `StepResult`
never has `done = true` through the built-in budget condition, and the
`step` result coincides with that of the same environment configured with
`max_steps = None`. -/
theorem C10_zero_budget (e : BaseEnvironment) (a : Action) (r : StepResult)
    (h : e.max_steps = some 0) :
    max_steps_reached e.max_steps e.current_step = false
  ∧ is_done e = false
  ∧ ((step e a).1 = Except.ok r → r.done = false)
  ∧ (step e a).1 = (step { e with max_steps := none } a).1 := by
  have hms : max_steps_reached e.max_steps e.current_step = false := by
    rw [h]
    exact max_steps_reached_zero _
  have hmain : ((step e a).1 = Except.ok r → r.done = false)
      ∧ (step e a).1 = (step { e with max_steps := none } a).1 := by
    by_cases hsu : e.is_setup = true
    · by_cases hee : e.episode_ended = true
      · have hs : step e a = (Except.error StepError.episode_has_ended, e) := by
          unfold step
          rw [if_neg (by simp [hms]), hsu, if_neg (by simp), if_pos hee]
        have hs2 : step { e with max_steps := none } a
            = (Except.error StepError.episode_has_ended, { e with max_steps := none }) := by
          unfold step
          rw [if_neg (by simp [max_steps_reached_none]), hsu, if_neg (by simp), if_pos hee]
        rw [hs, hs2]
        exact ⟨fun hok => absurd hok (by simp), rfl⟩
      · rw [Bool.not_eq_true] at hee
        cases hobs : e.last_observation with
        | none =>
          have hs : step e a = (Except.error StepError.no_observation, e) := by
            unfold step
            rw [if_neg (by simp [hms]), hsu, if_neg (by simp), if_neg (by simp [hee]),
                hobs]
          have hs2 : step { e with max_steps := none, last_observation := none } a
              = (Except.error StepError.no_observation,
                 { e with max_steps := none, last_observation := none }) := by
            unfold step
            rw [if_neg (by simp [max_steps_reached_none]), if_neg (by simp [hsu]),
                if_neg (by simp [hee])]
          rw [hs, hs2]
          exact ⟨fun hok => absurd hok (by simp), rfl⟩
        | some o =>
          cases hex : e.extractor.extract a.llm_response with
          | error msg =>
            rw [step_extract_error_eq e a o msg hms hsu hee hobs hex,
                step_extract_error_eq
                  { e with max_steps := none, last_observation := some o } a o msg
                  (max_steps_reached_none e.current_step) hsu hee rfl hex]
            exact ⟨fun hok => absurd hok (by simp), rfl⟩
          | ok ex0 =>
            cases hv : e.verifier.verify (ex0.getD "") a.final_answer with
            | error msg =>
              rw [step_verify_error_eq e a o ex0 msg hms hsu hee hobs hex hv,
                  step_verify_error_eq
                    { e with max_steps := none, last_observation := some o } a o ex0 msg
                    (max_steps_reached_none e.current_step) hsu hee rfl hex hv]
              exact ⟨fun hok => absurd hok (by simp), rfl⟩
            | ok v =>
              rw [step_normal_eq e a o ex0 v hms hsu hee hobs hex hv,
                  step_normal_eq
                    { e with max_steps := none, last_observation := some o } a o ex0 v
                    (max_steps_reached_none e.current_step) hsu hee rfl hex hv]
              simp only []
              rw [hobs]
              rw [compute_reward_mk_ms e.dataset e.verifier e.extractor e.teacher_agent
                    e.reward_hook e.is_setup (e.current_step + 1) e.episode_ended e.state
                    (some o) (e.episode_history ++ [(o, a)]) e.max_steps none
                    a (ex0.getD "") v]
              simp only []
              have hdone : is_done (compute_reward
                  { e with current_step := e.current_step + 1,
                           last_observation := some o,
                           episode_history := e.episode_history ++ [(o, a)] } a
                  (ex0.getD "") v).2 = false := by
                simp [is_done, h]
              have hdone2 : is_done { (compute_reward
                  { e with current_step := e.current_step + 1,
                           last_observation := some o,
                           episode_history := e.episode_history ++ [(o, a)] } a
                  (ex0.getD "") v).2 with max_steps := none } = false := by
                simp [is_done]
              simp only [hdone, hdone2, Bool.false_eq_true, if_false]
              rw [get_next_observation_max_steps_congr
                    ((compute_reward
                      { e with current_step := e.current_step + 1,
                               last_observation := some o,
                               episode_history := e.episode_history ++ [(o, a)] } a
                      (ex0.getD "") v).2) none]
              simp only []
              exact ⟨fun hok => by
                rw [← Except.ok.inj hok], trivial⟩
    · rw [Bool.not_eq_true] at hsu
      have hs : step e a = (Except.error StepError.not_setup, e) := by
        unfold step
        rw [if_neg (by simp [hms]), hsu, if_pos rfl]
      have hs2 : step { e with max_steps := none } a
          = (Except.error StepError.not_setup, { e with max_steps := none }) := by
        unfold step
        rw [if_neg (by simp [max_steps_reached_none]), hsu, if_pos rfl]
      rw [hs, hs2]
      exact ⟨fun hok => absurd hok (by simp), rfl⟩
  exact ⟨hms, by simp [is_done, h], hmain.1, hmain.2⟩

/-- Witness for **C10** on the budget-0 fixture. -/
theorem C10_zero_budget_witness :
    max_steps_reached envBudget0.max_steps envBudget0.current_step = false
  ∧ is_done envBudget0 = false :=
  ⟨(C10_zero_budget envBudget0 actGood (max_steps_result envBudget0) rfl).1,
   (C10_zero_budget envBudget0 actGood (max_steps_result envBudget0) rfl).2.1⟩

end Camel
